import Mathlib

/-!
Verification of the conversational orchestration engine of the AI-Assintant
repository.  The definitions below are a shallow embedding of the Python
sources:

* `extract_code_blocks`, `execute_bash_command`, `execute_python_code`
  embed `src/utils.py`;
* `augmentMessages`, `interactTrue`, `interactT`, `interact_with_model`
  embed `interact_with_model` of `src/ai_assistant.py`.

Strings are processed as `List Char` so that every operation is a plain
structural recursion that the kernel can evaluate.
-/

set_option maxRecDepth 16384

/-- Equality of modelled chat outcomes is decidable. -/
instance : DecidableEq (Except String String) := fun a b =>
  match a, b with
  | .ok x, .ok y =>
    if h : x = y then .isTrue (by rw [h]) else .isFalse (by simp [h])
  | .error x, .error y =>
    if h : x = y then .isTrue (by rw [h]) else .isFalse (by simp [h])
  | .ok _, .error _ => .isFalse (by simp)
  | .error _, .ok _ => .isFalse (by simp)

/-- Python `str.isspace` characters relevant to `str.strip()`. -/
def isPySpace (c : Char) : Bool :=
  (c == ' ') || (c == '\t') || (c == '\n') || (c == '\r') || (c == '\x0b') || (c == '\x0c')

/-- Python `str.strip()`: remove whitespace from both ends. -/
def pstrip (l : List Char) : List Char :=
  ((l.dropWhile isPySpace).reverse.dropWhile isPySpace).reverse

/-- Python `s.split(chr(10))`: split on every newline, keeping empty pieces. -/
def splitOnNl : List Char → List (List Char)
  | [] => [[]]
  | c :: cs =>
    let r := splitOnNl cs
    if c == '\n' then [] :: r
    else
      match r with
      | [] => [[c]]
      | l :: ls => (c :: l) :: ls

/-- Python `s.startswith(pre)` on whole strings. -/
def strStartsWith (s pre : String) : Bool :=
  pre.data.isPrefixOf s.data

/-- Python `s.endswith(post)` on whole strings. -/
def strEndsWith (s post : String) : Bool :=
  post.data.isSuffixOf s.data

/-- Python `pat in s` (substring containment). -/
def containsSub (pat : List Char) : List Char → Bool
  | [] => pat.isEmpty
  | c :: cs => pat.isPrefixOf (c :: cs) || containsSub pat cs

/-- The non-greedy capture of `(.*?)` up to the first occurrence of `close`
(with `re.DOTALL`, so the dot also takes newlines).  `none` when `close`
never occurs. -/
def captureUntil (close : List Char) : List Char → Option (List Char)
  | [] => none
  | c :: cs =>
    if close.isPrefixOf (c :: cs) then some []
    else
      match captureUntil close cs with
      | some cap => some (c :: cap)
      | none => none

/-- First (leftmost) match of the regex `openPat(.*?)close` with `re.DOTALL`:
scan start positions left to right; at a position where `openPat` matches and
`close` occurs later, the capture is the shortest one.  This models
`re.findall(pattern, text, re.DOTALL | re.MULTILINE)[0]` for the patterns of
`extract_code_blocks`, which contain no anchors. -/
def firstMatch (openPat close : List Char) : List Char → Option (List Char)
  | [] => none
  | c :: cs =>
    if openPat.isPrefixOf (c :: cs) then
      match captureUntil close (List.drop openPat.length (c :: cs)) with
      | some cap => some cap
      | none => firstMatch openPat close cs
    else firstMatch openPat close cs

/-- Closing fence shared by every pattern of `extract_code_blocks`. -/
def fence : List Char := "```".data

/-- Opening literal of the bash pattern `r"```bash\n(.*?)```"`. -/
def openBash1 : List Char := "```bash\n".data

/-- Opening literal of the bash pattern `r"```\n\$ (.*?)```"`. -/
def openBash2 : List Char := "```\n$ ".data

/-- Opening literal of the bash pattern `r"```bash\n\$ (.*?)```"`. -/
def openBash3 : List Char := "```bash\n$ ".data

/-- Opening literal of the python pattern `r"```python\n(.*?)```"`. -/
def openPy1 : List Char := "```python\n".data

/-- Opening literal of the python pattern `r"```py\n(.*?)```"`. -/
def openPy2 : List Char := "```py\n".data

/-- The pattern loop of `extract_code_blocks` (src/utils.py lines 151-163):
try the patterns in order; the first one with any match contributes its first
match and the loop breaks, so the result has at most one raw block. -/
def firstRawMatch (patterns : List (List Char)) (text : List Char) : List (List Char) :=
  match patterns with
  | [] => []
  | p :: ps =>
    match firstMatch p fence text with
    | some m => [m]
    | none => firstRawMatch ps text

/-- Bash normalization loop (src/utils.py lines 168-182): over the stripped
and newline-split block, skip blank lines and comment lines, strip one
leading dollar from the first remaining line and return it alone. -/
def firstCommandLine : List (List Char) → Option (List Char)
  | [] => none
  | l :: ls =>
    let line := pstrip l
    if line.isEmpty then firstCommandLine ls
    else if line.head? = some '#' then firstCommandLine ls
    else
      let line2 := if line.head? = some '$' then pstrip (line.drop 1) else line
      if line2.isEmpty then firstCommandLine ls else some line2

/-- The literal `"**name**"` marker (src/utils.py line 193). -/
def nameMarker : List Char := "**name**".data

/-- Python `code.replace("**name**", "__name__")`: leftmost, non-overlapping
replacement of every occurrence of the marker. -/
def fixNameMarker : List Char → List Char
  | '*' :: '*' :: 'n' :: 'a' :: 'm' :: 'e' :: '*' :: '*' :: rest =>
      "__name__".data ++ fixNameMarker rest
  | c :: rest => c :: fixNameMarker rest
  | [] => []

/-- Python-block cleanup (src/utils.py lines 189-195): strip, then replace
the marker when it occurs. -/
def clean_python_block (block : List Char) : List Char :=
  let code := pstrip block
  if containsSub nameMarker code then fixNameMarker code else code

/-- Model of `extract_code_blocks` of src/utils.py (lines 127-197): returns
`(bash blocks, python blocks)`, each with at most one element. -/
def extract_code_blocks (text : String) : List String × List String :=
  let t := text.data
  let bash_blocks := firstRawMatch [openBash1, openBash2, openBash3] t
  let python_blocks := firstRawMatch [openPy1, openPy2] t
  let clean_bash_blocks := bash_blocks.filterMap
    (fun block => (firstCommandLine (splitOnNl (pstrip block))).map (fun cmd => String.mk cmd))
  let clean_python_blocks := python_blocks.map (fun block => String.mk (clean_python_block block))
  (clean_bash_blocks, clean_python_blocks)

/-- A chat message: `{"role": ..., "content": ...}`. -/
structure Message where
  role : String
  content : String
deriving DecidableEq

/-- Command cleanup of `execute_bash_command` (src/utils.py lines 27-32):
strip, then drop one leading dollar and strip again. -/
def clean_bash_command (command : String) : String :=
  let c := String.mk (pstrip command.data)
  if strStartsWith c "$" then String.mk (pstrip c.data.tail) else c

/-- Model of `execute_bash_command` of src/utils.py (lines 16-71).  The interactive
confirmation is the oracle `confirm`; `run` gives the `(stdout, stderr)` the
subordinate process would produce for the cleaned command.  On confirmation
each non-empty stream is forced to end with a newline and both are returned;
on declination the sentinel `(none, none)` is returned.  (The exception
branch of the source, line 69-71, is unreachable in this pure model.) -/
def execute_bash_command (confirm : Bool) (run : String → String × String)
    (command : String) : Option String × Option String :=
  let clean_command := clean_bash_command command
  if confirm then
    let oe := run clean_command
    let stdout_content :=
      if oe.1 ≠ "" ∧ strEndsWith oe.1 "\n" = false then oe.1 ++ "\n" else oe.1
    let stderr_content :=
      if oe.2 ≠ "" ∧ strEndsWith oe.2 "\n" = false then oe.2 ++ "\n" else oe.2
    (some stdout_content, some stderr_content)
  else (none, none)

/-- The three choices offered by `execute_python_code` (src/utils.py line 89). -/
inductive PyChoice
  | ejecutar
  | guardar
  | cancelar
deriving DecidableEq

/-- Model of `execute_python_code` of src/utils.py (lines 73-125).  The interactive
choice is the oracle `choice`; `saveOutcome` is `.ok filename` when the file
write succeeds or `.error msg` when it raises; `execOutcome` is
`.ok capturedStdout` when `exec` succeeds or `.error msg` when it raises.
Cancelling returns the empty string; saving returns a (never empty)
confirmation or error string; executing returns the captured output or a
textual error — failures never propagate. -/
def execute_python_code (choice : PyChoice)
    (saveOutcome execOutcome : Except String String) : String :=
  match choice with
  | .cancelar => ""
  | .guardar =>
      match saveOutcome with
      | .ok filename => "Código guardado en " ++ filename
      | .error e => "Error al guardar el archivo: " ++ e
  | .ejecutar =>
      match execOutcome with
      | .ok output => output
      | .error e => "Error: " ++ e

/-- The external collaborators and interactive oracles consumed by one
top-level query of `interact_with_model`:

* `ragContext` — `self.rag.get_relevant_context`;
* `chat` — `ollama.chat`: the full streamed response for a message list, or
  `.error e` when the call raises before yielding any token;
* `pyChoice`, `pySave`, `pyExec` — the oracles of `execute_python_code`
  (`pyExec` depends on the code that would be executed);
* `bashConfirm`, `bashRun` — the oracles of `execute_bash_command`. -/
structure Env where
  ragContext : String → String
  chat : List Message → Except String String
  pyChoice : PyChoice
  pySave : Except String String
  pyExec : String → Except String String
  bashConfirm : Bool
  bashRun : String → String × String

/-- The system command tokens of src/ai_assistant.py line 55. -/
def system_commands : List String :=
  ["/help", "/exit", "/ihtml", "/model", "/rag", "/clear_rag"]

/-- Text inserted before the retrieved context (src/ai_assistant.py line 68). -/
def contextHeader : String :=
  "\n\nContexto relevante para responder a la pregunta del usuario:\n"

/-- Text appended after the retrieved context (src/ai_assistant.py line 70). -/
def contextFooter : String :=
  "\n\nUtiliza este contexto para dar una respuesta precisa, pero no menciones explícitamente que estás usando contexto."

/-- The augmentation step of `interact_with_model` (src/ai_assistant.py
lines 53-78, the `processing_code == False` side): system commands and empty
retrieval leave the message list unchanged; otherwise the head system
message of a copy is replaced by its augmented variant.  The source indexes
`messages[0]` directly, so an empty history would raise there; every caller
passes a non-empty history. -/
def augmentMessages (ctx : String → String) (messages : List Message)
    (query : String) : List Message :=
  let is_system_command := system_commands.any (fun cmd => strStartsWith query cmd)
  if is_system_command then messages
  else
    let context := ctx query
    if context = "" then messages
    else
      match messages with
      | [] => []
      | m0 :: rest =>
          ⟨"system", m0.content ++ contextHeader ++ context ++ contextFooter⟩ :: rest

/-- Prefix of the transport-failure message (src/ai_assistant.py line 98). -/
def errorPrefix : String := "Error conectando con Ollama: "

/-- Prefix of the python execution report (src/ai_assistant.py line 131). -/
def execResultPrefix : String := "Resultado de la ejecución:\n"

/-- The bash execution report (src/ai_assistant.py line 143). -/
def bashResultMsg (command : String) (output error : Option String) : String :=
  "Resultado de \x27" ++ command ++ "\x27:\n" ++ output.getD "" ++ error.getD ""

/-- The result of one call of `interact_with_model` together with counters of
the side effects it performed (cumulative over the recursion): number of
`ollama.chat` invocations, of `execute_python_code` invocations and of
`execute_bash_command` invocations. -/
structure TraceResult where
  history : List Message
  chatCalls : Nat
  pyCalls : Nat
  bashCalls : Nat
deriving DecidableEq

/-- Model of `interact_with_model(messages, query, processing_code=True)` of
src/ai_assistant.py: augmentation is skipped (lines 79-81), the model is
called once, and the `if not processing_code` guard of line 117 skips
extraction entirely, so the call returns right after appending the response
(or the transport error, line 98, which is appended to the untouched input
`messages`).  The `query` argument is only ever used for augmentation and so
is unused here. -/
def interactTrue (env : Env) (messages : List Message) (_query : String) : TraceResult :=
  let current := messages
  match env.chat current with
  | .error e =>
      { history := messages ++ [⟨"assistant", errorPrefix ++ e⟩],
        chatCalls := 1, pyCalls := 0, bashCalls := 0 }
  | .ok fullResponse =>
      { history := current ++ [⟨"assistant", fullResponse⟩],
        chatCalls := 1, pyCalls := 0, bashCalls := 0 }

/-- Model of `interact_with_model` of src/ai_assistant.py (lines 40-160), with side
effects counted.  The `while not response_complete` loop of the source runs
its body exactly once (every path returns or sets the flag), so it is
straight-line here.  The only recursive calls of the source (lines 136 and
147) pass `processing_code=True`, and the `True` branch never recurses, so
the recursion is unrolled: those two call sites invoke `interactTrue`
directly (`interactT env m q true = interactTrue env m q` holds by `rfl`,
see `interactT_true_eq`).  The extraction `try/except` of lines 119-150 is
dead in this pure model: `extract_code_blocks` is total and both executors
catch their own exceptions. -/
def interactT (env : Env) (messages : List Message) (query : String)
    (processingCode : Bool) : TraceResult :=
  match processingCode with
  | true => interactTrue env messages query
  | false =>
    let current := augmentMessages env.ragContext messages query
    match env.chat current with
    | .error e =>
        { history := messages ++ [⟨"assistant", errorPrefix ++ e⟩],
          chatCalls := 1, pyCalls := 0, bashCalls := 0 }
    | .ok fullResponse =>
      let history := current ++ [⟨"assistant", fullResponse⟩]
      let blocks := extract_code_blocks fullResponse
      let bash_blocks := blocks.1
      let python_blocks := blocks.2
      let pyCallCount : Nat := match python_blocks with | [] => 0 | _ :: _ => 1
      -- `some result` exactly when lines 127-136 of the source recurse:
      -- a python block exists and its execution result is truthy.
      let pyRecurse : Option String :=
        match python_blocks with
        | [] => none
        | code :: _ =>
          let result := execute_python_code env.pyChoice env.pySave (env.pyExec code)
          if result = "" then none else some result
      match pyRecurse with
      | some result =>
        let execution_result := execResultPrefix ++ result
        let new_messages := messages ++
          [⟨"assistant", fullResponse⟩, ⟨"user", execution_result⟩]
        let r := interactTrue env new_messages execution_result
        { history := r.history, chatCalls := r.chatCalls + 1,
          pyCalls := r.pyCalls + pyCallCount, bashCalls := r.bashCalls }
      | none =>
        match bash_blocks with
        | [] =>
            { history := history, chatCalls := 1,
              pyCalls := pyCallCount, bashCalls := 0 }
        | command :: _ =>
          let oe := execute_bash_command env.bashConfirm env.bashRun command
          if oe.1.isSome || oe.2.isSome then
            let execution_result := bashResultMsg command oe.1 oe.2
            let new_messages := messages ++
              [⟨"assistant", fullResponse⟩, ⟨"user", execution_result⟩]
            let r := interactTrue env new_messages execution_result
            { history := r.history, chatCalls := r.chatCalls + 1,
              pyCalls := r.pyCalls + pyCallCount, bashCalls := r.bashCalls + 1 }
          else
            { history := history, chatCalls := 1,
              pyCalls := pyCallCount, bashCalls := 1 }

/-- The history returned by `interact_with_model`. -/
def interact_with_model (env : Env) (messages : List Message) (query : String)
    (processingCode : Bool) : List Message :=
  (interactT env messages query processingCode).history

/-! Concrete fixtures used by counterexamples and witnesses. -/

/-- A minimal two-message history: system message then user query. -/
def hist0 : List Message := [⟨"system", "S"⟩, ⟨"user", "hola"⟩]

/-- A neutral environment: no retrieved context, a code-free response,
everything declined or empty. -/
def baseEnv : Env where
  ragContext := fun _ => ""
  chat := fun _ => .ok "hola"
  pyChoice := .ejecutar
  pySave := .ok "script.py"
  pyExec := fun _ => .ok ""
  bashConfirm := false
  bashRun := fun _ => ("", "")

/-- Environment with non-empty retrieval and a code-free response. -/
def c2Env : Env := { baseEnv with ragContext := fun _ => "CTX", pyChoice := .cancelar }

/-- A response holding exactly one python block. -/
def pyResp : String := "```python\nprint(1)\n```"

/-- Environment where the model answers with a python block, the user picks
save at the prompt (the save succeeds), and the follow-up response is plain
text. -/
def c3Env : Env :=
  { baseEnv with
      chat := fun msgs => if msgs.length ≤ 2 then .ok pyResp else .ok "listo"
      pyChoice := .guardar }

/-- Environment where the model answers with a python block and the user
cancels at the prompt. -/
def c3wEnv : Env := { baseEnv with chat := fun _ => .ok pyResp, pyChoice := .cancelar }

/-- A response holding a python block followed by a bash block. -/
def mixedResp : String := "```python\nprint(1)\n```\n```bash\nrm x\n```"

/-- Environment where the model answers with both blocks, the user executes
the python code (which prints), and bash execution would be confirmed. -/
def c4Env : Env :=
  { baseEnv with
      chat := fun msgs => if msgs.length ≤ 2 then .ok mixedResp else .ok "listo"
      pyExec := fun _ => .ok "1\n"
      bashConfirm := true
      bashRun := fun _ => ("out", "") }

/-- Environment where the model answers with both blocks, the user cancels
the python code but confirms the shell command, which prints a file name. -/
def c5Env : Env :=
  { baseEnv with
      chat := fun msgs => if msgs.length ≤ 2 then .ok mixedResp else .ok "listo"
      pyChoice := .cancelar
      bashConfirm := true
      bashRun := fun _ => ("file.txt\n", "") }

/-- Environment whose chat transport fails before yielding any token. -/
def c6Env : Env := { baseEnv with chat := fun _ => .error "boom" }

/-- A response whose bash block holds only comment and blank lines. -/
def commentOnlyResp : String := "```bash\n# a\n\n# b\n```"

/-- Environment answering with the comment-only bash block, with shell
execution confirmed (so an attempted execution would be counted). -/
def c10Env : Env :=
  { baseEnv with chat := fun _ => .ok commentOnlyResp, bashConfirm := true }

/-! Helper lemmas. -/

/-- The recursion of the source, unrolled in `interactT`, is faithful: a
call with `processing_code=True` is exactly `interactTrue`. -/
theorem interactT_true_eq (env : Env) (m : List Message) (q : String) :
    interactT env m q true = interactTrue env m q := rfl

/-- A `processing_code=True` call makes exactly one chat call. -/
theorem interactTrue_chatCalls (env : Env) (m : List Message) (q : String) :
    (interactTrue env m q).chatCalls = 1 := by
  cases h : env.chat m <;> simp [interactTrue, h]

/-- A `processing_code=True` call never runs a script block. -/
theorem interactTrue_pyCalls (env : Env) (m : List Message) (q : String) :
    (interactTrue env m q).pyCalls = 0 := by
  cases h : env.chat m <;> simp [interactTrue, h]

/-- A `processing_code=True` call never runs a shell block. -/
theorem interactTrue_bashCalls (env : Env) (m : List Message) (q : String) :
    (interactTrue env m q).bashCalls = 0 := by
  cases h : env.chat m <;> simp [interactTrue, h]

/-- A `processing_code=True` call appends exactly one assistant message. -/
theorem interactTrue_history (env : Env) (m : List Message) (q : String) :
    ∃ t, (interactTrue env m q).history = m ++ [⟨"assistant", t⟩] := by
  cases h : env.chat m with
  | error e => exact ⟨errorPrefix ++ e, by simp [interactTrue, h]⟩
  | ok r => exact ⟨r, by simp [interactTrue, h]⟩

/-- Value of `interactTrue` on a successful chat call. -/
theorem interactTrue_ok (env : Env) (m : List Message) (q r : String)
    (h : env.chat m = .ok r) :
    interactTrue env m q =
      { history := m ++ [⟨"assistant", r⟩], chatCalls := 1, pyCalls := 0, bashCalls := 0 } := by
  simp [interactTrue, h]

/-- Value of `interactTrue` on a failing chat call. -/
theorem interactTrue_err (env : Env) (m : List Message) (q e : String)
    (h : env.chat m = .error e) :
    interactTrue env m q =
      { history := m ++ [⟨"assistant", errorPrefix ++ e⟩],
        chatCalls := 1, pyCalls := 0, bashCalls := 0 } := by
  simp [interactTrue, h]

/-- Augmentation leaves a system-command query untouched, for any retrieval
function. -/
theorem augment_of_command (ctx : String → String) (m : List Message) (q : String)
    (hcmd : system_commands.any (fun cmd => strStartsWith q cmd) = true) :
    augmentMessages ctx m q = m := by
  simp [augmentMessages, hcmd]

/-! Claim theorems. -/

/-- Claim C1: a call with `processingCode=true` skips extraction (no executor
is ever invoked, exactly one chat call, and the returned history is the input
plus a single assistant message), so a top-level query with
`processingCode=false` makes at most 2 chat calls. -/
theorem c1_processing_code_bound (env : Env) (m : List Message) (q : String) :
    (interactT env m q true).pyCalls = 0 ∧
    (interactT env m q true).bashCalls = 0 ∧
    (interactT env m q true).chatCalls = 1 ∧
    (∃ t, interact_with_model env m q true = m ++ [⟨"assistant", t⟩]) ∧
    (interactT env m q false).chatCalls ≤ 2 := by
  refine ⟨interactTrue_pyCalls env m q, interactTrue_bashCalls env m q,
    interactTrue_chatCalls env m q, interactTrue_history env m q, ?_⟩
  unfold interactT
  cases h : env.chat (augmentMessages env.ragContext m q) with
  | error e => simp [h]
  | ok r =>
    simp only [h]
    split
    · simp [interactTrue_chatCalls]
    · split
      · simp
      · split
        · simp [interactTrue_chatCalls]
        · simp

/-- Claim C6: when the chat transport fails before yielding any token, the
engine returns the input history plus a single assistant message holding the
error text — one chat attempt, no extraction, no recursion. -/
theorem c6_transport_failure (env : Env) (m : List Message) (q e : String)
    (p : Bool)
    (hchat : env.chat (if p then m else augmentMessages env.ragContext m q) = .error e) :
    interactT env m q p =
      { history := m ++ [⟨"assistant", errorPrefix ++ e⟩],
        chatCalls := 1, pyCalls := 0, bashCalls := 0 } := by
  cases p with
  | true =>
    simp at hchat
    exact interactTrue_err env m q e hchat
  | false =>
    simp at hchat
    unfold interactT
    simp [hchat]

/-- Claim C6 witness: a concrete transport failure on a top-level query. -/
theorem c6_transport_failure_witness :
    c6Env.chat (if false then hist0 else augmentMessages c6Env.ragContext hist0 "hola") =
      .error "boom" ∧
    interactT c6Env hist0 "hola" false =
      { history := hist0 ++ [⟨"assistant", errorPrefix ++ "boom"⟩],
        chatCalls := 1, pyCalls := 0, bashCalls := 0 } :=
  ⟨rfl, c6_transport_failure c6Env hist0 "hola" "boom" false rfl⟩

/-- Claim C8: declining shell execution returns the sentinel `(none, none)`;
a confirmed execution always returns two `some` streams, in particular
`(some "", some "")` when the process produced no output — distinguishable
from the sentinel. -/
theorem c8_decline_sentinel :
    (∀ (run : String → String × String) (cmd : String),
        execute_bash_command false run cmd = (none, none)) ∧
    (∀ (run : String → String × String) (cmd : String),
        (execute_bash_command true run cmd).1.isSome = true ∧
        (execute_bash_command true run cmd).2.isSome = true) ∧
    execute_bash_command true (fun _ => ("", "")) "ls" = (some "", some "") ∧
    (some "", some "") ≠ ((none, none) : Option String × Option String) := by
  refine ⟨fun run cmd => rfl, fun run cmd => ⟨rfl, rfl⟩, by decide, by decide⟩

/-- Claim C9: a query that is exactly or prefixed by a recognized command
token leaves the augmentation step without retrieval: the effective history
equals the input for every retrieval function, and the whole turn is
independent of the retrieval function. -/
theorem c9_command_bypasses_retrieval (ctx : String → String) (m : List Message)
    (q : String)
    (hcmd : system_commands.any (fun cmd => strStartsWith q cmd) = true) :
    augmentMessages ctx m q = m ∧
    ∀ (env : Env) (ctx2 : String → String),
      interactT env m q false = interactT { env with ragContext := ctx2 } m q false := by
  refine ⟨augment_of_command ctx m q hcmd, fun env ctx2 => ?_⟩
  unfold interactT
  rw [augment_of_command env.ragContext m q hcmd,
      augment_of_command ctx2 m q hcmd]
  rfl

/-- Claim C9 witness: the `/help` query with a retrieval stub returning
non-empty context. -/
theorem c9_command_bypasses_retrieval_witness :
    system_commands.any (fun cmd => strStartsWith "/help" cmd) = true ∧
    augmentMessages (fun _ => "CTX") hist0 "/help" = hist0 :=
  ⟨by decide, (c9_command_bypasses_retrieval (fun _ => "CTX") hist0 "/help" (by decide)).1⟩

/-- Claim C2 (evidence of the code bug): with non-empty retrieved context and
a code-free response, the history returned by the engine — the one the
session driver persists — keeps the augmented system message at index 0:
the retrieved context survives past the model call. -/
theorem c2_augmentation_persists :
    (interact_with_model c2Env hist0 "hola" false).head? =
      some ⟨"system", "S" ++ contextHeader ++ "CTX" ++ contextFooter⟩ ∧
    (interact_with_model c2Env hist0 "hola" false).head? ≠ some ⟨"system", "S"⟩ ∧
    interact_with_model c2Env hist0 "hola" false =
      [⟨"system", "S" ++ contextHeader ++ "CTX" ++ contextFooter⟩,
       ⟨"user", "hola"⟩, ⟨"assistant", "hola"⟩] := by
  refine ⟨?_, ?_, ?_⟩ <;> decide

/-- Claim C3 counterexample: the response contains only a script block, the
user chooses save (persist-to-file) at the execution prompt, and yet the
turn is not final — a second chat call happens and the returned history is
not the working history. -/
theorem c3_save_counterexample :
    (interactT c3Env hist0 "guarda" false).chatCalls = 2 ∧
    interact_with_model c3Env hist0 "guarda" false ≠ hist0 ++ [⟨"assistant", pyResp⟩] ∧
    interact_with_model c3Env hist0 "guarda" false =
      hist0 ++ [⟨"assistant", pyResp⟩,
        ⟨"user", execResultPrefix ++ "Código guardado en script.py"⟩,
        ⟨"assistant", "listo"⟩] := by
  refine ⟨?_, ?_, ?_⟩ <;> decide

/-- Claim C3 (amended): if the user cancels script execution the script
result is empty and triggers no recursion, so when the response also yields
no shell block the turn is final: the engine returns the working history
(effective history plus the assistant response) after a single chat call.
Choosing save instead yields a non-empty confirmation string and recurses
(see the counterexample). -/
theorem c3_cancel_final (env : Env) (m : List Message) (q resp : String)
    (hchat : env.chat (augmentMessages env.ragContext m q) = .ok resp)
    (hcancel : env.pyChoice = .cancelar)
    (hscript : (extract_code_blocks resp).2 ≠ [])
    (hnobash : (extract_code_blocks resp).1 = []) :
    interact_with_model env m q false =
      augmentMessages env.ragContext m q ++ [⟨"assistant", resp⟩] ∧
    (interactT env m q false).chatCalls = 1 := by
  obtain ⟨code, rest, hpy⟩ : ∃ c r, (extract_code_blocks resp).2 = c :: r := by
    cases hb : (extract_code_blocks resp).2 with
    | nil => exact absurd hb hscript
    | cons c r => exact ⟨c, r, rfl⟩
  unfold interact_with_model interactT
  simp [hchat, hpy, hnobash, hcancel, execute_python_code]

/-- Claim C3 witness: script block only, user cancels, turn is final. -/
theorem c3_cancel_final_witness :
    c3wEnv.chat (augmentMessages c3wEnv.ragContext hist0 "hola") = .ok pyResp ∧
    c3wEnv.pyChoice = .cancelar ∧
    (extract_code_blocks pyResp).2 ≠ [] ∧
    (extract_code_blocks pyResp).1 = [] ∧
    (interact_with_model c3wEnv hist0 "hola" false =
      augmentMessages c3wEnv.ragContext hist0 "hola" ++ [⟨"assistant", pyResp⟩] ∧
     (interactT c3wEnv hist0 "hola" false).chatCalls = 1) :=
  ⟨rfl, rfl, by decide, by decide,
    c3_cancel_final c3wEnv hist0 "hola" pyResp rfl rfl (by decide) (by decide)⟩

/-- Claim C4: when the response (processed with `processingCode=false`)
contains a script block whose execution yields non-empty output, the turn
recurses immediately on the script result and no shell execution is ever
attempted in that turn, whatever shell block the response also contains. -/
theorem c4_script_before_shell (env : Env) (m : List Message) (q resp code : String)
    (rest : List String)
    (hchat : env.chat (augmentMessages env.ragContext m q) = .ok resp)
    (hpy : (extract_code_blocks resp).2 = code :: rest)
    (hres : execute_python_code env.pyChoice env.pySave (env.pyExec code) ≠ "") :
    (interactT env m q false).bashCalls = 0 ∧
    interact_with_model env m q false =
      interact_with_model env
        (m ++ [⟨"assistant", resp⟩,
          ⟨"user", execResultPrefix ++
            execute_python_code env.pyChoice env.pySave (env.pyExec code)⟩])
        (execResultPrefix ++
          execute_python_code env.pyChoice env.pySave (env.pyExec code))
        true := by
  unfold interact_with_model interactT
  simp only [hchat, hpy]
  rw [if_neg hres]
  exact ⟨interactTrue_bashCalls env _ _, rfl⟩

/-- Claim C4 witness: a response with both a script and a shell block, the
script prints, and the shell block is never executed. -/
theorem c4_script_before_shell_witness :
    c4Env.chat (augmentMessages c4Env.ragContext hist0 "hola") = .ok mixedResp ∧
    (extract_code_blocks mixedResp).2 = ["print(1)"] ∧
    execute_python_code c4Env.pyChoice c4Env.pySave (c4Env.pyExec "print(1)") ≠ "" ∧
    ((interactT c4Env hist0 "hola" false).bashCalls = 0 ∧
     interact_with_model c4Env hist0 "hola" false =
      interact_with_model c4Env
        (hist0 ++ [⟨"assistant", mixedResp⟩,
          ⟨"user", execResultPrefix ++
            execute_python_code c4Env.pyChoice c4Env.pySave (c4Env.pyExec "print(1)")⟩])
        (execResultPrefix ++
          execute_python_code c4Env.pyChoice c4Env.pySave (c4Env.pyExec "print(1)"))
        true) :=
  ⟨by decide, by decide, by decide,
    c4_script_before_shell c4Env hist0 "hola" mixedResp "print(1)" [] (by decide)
      (by decide) (by decide)⟩

/-- Claim C5: whenever the execution of the chosen block yields a non-empty
result (script) or a non-declined result (shell), the engine recurses
exactly once — two chat calls in total — on the input history followed by
exactly the assistant response and a user message carrying the execution
result, with `processingCode=true`, and the return value of the recursive call is
returned directly. -/
theorem c5_recursion_shape (env : Env) (m : List Message) (q resp : String)
    (hchat : env.chat (augmentMessages env.ragContext m q) = .ok resp) :
    (∀ code rest, (extract_code_blocks resp).2 = code :: rest →
      execute_python_code env.pyChoice env.pySave (env.pyExec code) ≠ "" →
      interact_with_model env m q false =
        interact_with_model env
          (m ++ [⟨"assistant", resp⟩,
            ⟨"user", execResultPrefix ++
              execute_python_code env.pyChoice env.pySave (env.pyExec code)⟩])
          (execResultPrefix ++
            execute_python_code env.pyChoice env.pySave (env.pyExec code))
          true ∧
      (interactT env m q false).chatCalls = 2) ∧
    (∀ command rest, (extract_code_blocks resp).1 = command :: rest →
      ((extract_code_blocks resp).2 = [] ∨
        ∃ code rest2, (extract_code_blocks resp).2 = code :: rest2 ∧
          execute_python_code env.pyChoice env.pySave (env.pyExec code) = "") →
      ∀ o e, execute_bash_command env.bashConfirm env.bashRun command = (o, e) →
      (o.isSome || e.isSome) = true →
      interact_with_model env m q false =
        interact_with_model env
          (m ++ [⟨"assistant", resp⟩, ⟨"user", bashResultMsg command o e⟩])
          (bashResultMsg command o e) true ∧
      (interactT env m q false).chatCalls = 2) := by
  constructor
  · intro code rest hpy hres
    unfold interact_with_model interactT
    simp only [hchat, hpy]
    rw [if_neg hres]
    exact ⟨rfl, by simp [interactTrue_chatCalls]⟩
  · intro command rest hbash hnopy o e hoe hsome
    unfold interact_with_model interactT
    simp only [hchat, hbash]
    have hrec : (match (extract_code_blocks resp).2 with
        | [] => none
        | code :: _ =>
          if execute_python_code env.pyChoice env.pySave (env.pyExec code) = ""
          then none
          else some (execute_python_code env.pyChoice env.pySave (env.pyExec code)))
        = (none : Option String) := by
      rcases hnopy with h | ⟨code, rest2, hc, hz⟩
      · simp [h]
      · simp [hc, hz]
    simp only [hrec, hoe, hsome]
    simp [interactTrue_chatCalls]

/-- Claim C5 witness: the response holds a script block the user cancels and
a shell block whose confirmed execution prints a file name; the engine
recurses once on the shell result. -/
theorem c5_recursion_shape_witness :
    c5Env.chat (augmentMessages c5Env.ragContext hist0 "hola") = .ok mixedResp ∧
    (extract_code_blocks mixedResp).1 = ["rm x"] ∧
    execute_bash_command c5Env.bashConfirm c5Env.bashRun "rm x" =
      (some "file.txt\n", some "") ∧
    (interact_with_model c5Env hist0 "hola" false =
      interact_with_model c5Env
        (hist0 ++ [⟨"assistant", mixedResp⟩,
          ⟨"user", bashResultMsg "rm x" (some "file.txt\n") (some "")⟩])
        (bashResultMsg "rm x" (some "file.txt\n") (some "")) true ∧
     (interactT c5Env hist0 "hola" false).chatCalls = 2) :=
  ⟨by decide, by decide, by decide,
    (c5_recursion_shape c5Env hist0 "hola" mixedResp (by decide)).2 "rm x" []
      (by decide)
      (Or.inr ⟨"print(1)", [], by decide, by decide⟩)
      (some "file.txt\n") (some "") (by decide) (by decide)⟩

/-- No bash block survives normalization when every line of the matched
block is blank or a comment. -/
theorem firstCommandLine_none (lines : List (List Char))
    (h : ∀ l ∈ lines, pstrip l = [] ∨ (pstrip l).head? = some '#') :
    firstCommandLine lines = none := by
  induction lines with
  | nil => rfl
  | cons l ls ih =>
    have hl := h l (List.mem_cons_self l ls)
    have hrest := ih fun x hx => h x (List.mem_cons_of_mem l hx)
    unfold firstCommandLine
    by_cases he : (pstrip l).isEmpty
    · simp [he, hrest]
    · rcases hl with h1 | h1
      · simp [h1] at he
      · simp [he, h1, hrest]

/-- The pattern loop keeps at most one raw block. -/
theorem firstRawMatch_length (patterns : List (List Char)) (text : List Char) :
    (firstRawMatch patterns text).length ≤ 1 := by
  induction patterns with
  | nil => simp [firstRawMatch]
  | cons p ps ih =>
    unfold firstRawMatch
    cases h : firstMatch p fence text <;> simp [h, ih]

/-- Claim C7: shell normalization keeps only the first non-blank,
non-comment line, with a leading dollar prompt stripped: the example of the spec
yields exactly `ls -la`; a multi-line block collapses to its first
actionable line; and at most one shell block ever survives extraction. -/
theorem c7_shell_normalization :
    (extract_code_blocks "```bash\n# comment\n$ ls -la\n```").1 = ["ls -la"] ∧
    (extract_code_blocks "```bash\n\n# uno\n$ echo a\necho b\n```").1 = ["echo a"] ∧
    ∀ text : String, (extract_code_blocks text).1.length ≤ 1 := by
  refine ⟨by decide, by decide, fun text => ?_⟩
  exact le_trans (List.length_filterMap_le _ _)
    (firstRawMatch_length [openBash1, openBash2, openBash3] text.data)

/-- Claim C10: when the matched bash fenced block consists only of blank
lines and comment lines, extraction returns no shell block, and a turn whose
response is such a text never attempts a shell execution. -/
theorem c10_comment_only_no_shell (text : String) (raw : List Char)
    (hraw : firstRawMatch [openBash1, openBash2, openBash3] text.data = [raw])
    (hlines : ∀ l ∈ splitOnNl (pstrip raw),
      pstrip l = [] ∨ (pstrip l).head? = some '#') :
    (extract_code_blocks text).1 = [] ∧
    ∀ (env : Env) (m : List Message) (q : String),
      env.chat (augmentMessages env.ragContext m q) = .ok text →
      (interactT env m q false).bashCalls = 0 := by
  have hclean : firstCommandLine (splitOnNl (pstrip raw)) = none :=
    firstCommandLine_none _ hlines
  have hb : (extract_code_blocks text).1 = [] := by
    unfold extract_code_blocks
    simp [hraw, hclean]
  refine ⟨hb, fun env m q henv => ?_⟩
  unfold interactT
  simp only [henv]
  split
  · simp [interactTrue_bashCalls]
  · simp [hb]

/-- Claim C10 witness: a comment-only bash block yields no shell block and a
turn answering with it performs no shell execution. -/
theorem c10_comment_only_no_shell_witness :
    firstRawMatch [openBash1, openBash2, openBash3] commentOnlyResp.data =
      ["# a\n\n# b\n".data] ∧
    (∀ l ∈ splitOnNl (pstrip "# a\n\n# b\n".data),
      pstrip l = [] ∨ (pstrip l).head? = some '#') ∧
    ((extract_code_blocks commentOnlyResp).1 = [] ∧
     (interactT c10Env hist0 "hola" false).bashCalls = 0) := by
  refine ⟨by decide, by decide, ?_⟩
  have h := c10_comment_only_no_shell commentOnlyResp "# a\n\n# b\n".data
    (by decide) (by decide)
  exact ⟨h.1, h.2 c10Env hist0 "hola" (by decide)⟩


